import Mathlib

/-!
Shallow embedding of the color scripts of the repository `nocoo/noheir`
(`src/scripts/hex_to_hsl.py`, `update_color.py`, `extract_logo_color.py`,
`generate_logo.py`, `generate_favicon.py`).

Python floats are modelled by exact rational arithmetic over `ℚ`; Python
integers by `ℤ`; fallible library calls (`int(s, 16)`, `Image.getpixel`)
return `Option`.  Python `round` is banker's rounding (round half to even),
modelled by `pyRound`; the float modulo `%` with positive modulus 6 is
modelled by `qmod6`.
-/

/-! ## Python primitives used by the scripts -/

/-- Value of one hexadecimal digit, as accepted by Python `int(_, 16)`:
decimal digits, lowercase and uppercase `a`-`f`. -/
def hexDigit? (c : Char) : Option ℕ :=
  if 48 ≤ c.toNat ∧ c.toNat ≤ 57 then some (c.toNat - 48)
  else if 97 ≤ c.toNat ∧ c.toNat ≤ 102 then some (c.toNat - 87)
  else if 65 ≤ c.toNat ∧ c.toNat ≤ 70 then some (c.toNat - 55)
  else none

/-- ASCII whitespace stripped by Python `int()`: space, tab, LF, VT, FF, CR. -/
def isPySpace (c : Char) : Bool :=
  c.toNat = 32 || c.toNat = 9 || c.toNat = 10 || c.toNat = 13 || c.toNat = 11 || c.toNat = 12

/-- Python `int()` ignores leading and trailing whitespace. -/
def stripSpaces (l : List Char) : List Char :=
  ((l.dropWhile (fun c => isPySpace c)).reverse.dropWhile (fun c => isPySpace c)).reverse

/-- Digit run of a Python int literal in base 16: nonempty, single
underscores allowed only between digits. -/
def hexDigitsGo (acc : ℕ) : List Char → Option ℕ
  | [] => some acc
  | c :: rest =>
    if c = '_' then
      match rest with
      | [] => none
      | c2 :: rest2 =>
        match hexDigit? c2 with
        | some d => hexDigitsGo (16 * acc + d) rest2
        | none => none
    else
      match hexDigit? c with
      | some d => hexDigitsGo (16 * acc + d) rest
      | none => none

/-- Value of a nonempty base-16 digit run (underscore rules as in Python). -/
def hexDigitsVal : List Char → Option ℕ
  | [] => none
  | c :: rest =>
    match hexDigit? c with
    | some d => hexDigitsGo d rest
    | none => none

/-- After a `0x` prefix Python allows one underscore before the digits. -/
def afterHexMarker (l : List Char) : Option ℕ :=
  match l with
  | c :: rest => if c = '_' then hexDigitsVal rest else hexDigitsVal (c :: rest)
  | [] => none

/-- Magnitude part of Python `int(_, 16)`: an optional `0x`/`0X` marker,
then a base-16 digit run. -/
def hexNat : List Char → Option ℕ
  | c0 :: c1 :: rest =>
    if c0 = '0' ∧ (c1 = 'x' ∨ c1 = 'X') then afterHexMarker rest
    else hexDigitsVal (c0 :: c1 :: rest)
  | l => hexDigitsVal l

/-- Python `int(s, 16)` on the characters of `s`: strip whitespace, optional
sign, optional `0x` marker, base-16 digits; `none` models `ValueError`. -/
def pyIntHex (l : List Char) : Option ℤ :=
  match stripSpaces l with
  | [] => none
  | c :: rest =>
    if c = '+' then (hexNat rest).map (fun n => (n : ℤ))
    else if c = '-' then (hexNat rest).map (fun n => -(n : ℤ))
    else (hexNat (c :: rest)).map (fun n => (n : ℤ))

/-- Python slice `l[i:j]` for `0 ≤ i ≤ j` (out-of-range indices are clamped,
never an error). -/
def pySlice (l : List Char) (i j : ℕ) : List Char :=
  (l.drop i).take (j - i)

/-- Python `round` on an exact rational: round half to even (banker's
rounding), as Python 3 `round` does on floats. -/
def pyRound (x : ℚ) : ℤ :=
  if x - (⌊x⌋ : ℚ) < 1 / 2 then ⌊x⌋
  else if (1 : ℚ) / 2 < x - (⌊x⌋ : ℚ) then ⌊x⌋ + 1
  else if ⌊x⌋ % 2 = 0 then ⌊x⌋ else ⌊x⌋ + 1

/-- Python float `%` with positive modulus 6, on exact rationals:
`x % 6 = x - 6 * floor (x / 6)`, always in `[0, 6)`. -/
def qmod6 (x : ℚ) : ℚ := x - 6 * ⌊x / 6⌋

/-! ## The converter of `src/scripts/hex_to_hsl.py` -/

/-- Hue computation of `hex_to_hsl` (the `h` variable, before rounding):
`0` when `delta == 0`, otherwise the 60-degree sector formula picked by
which channel is the maximum. -/
def hueQ (r g b : ℚ) : ℚ :=
  let maxc := max r (max g b)
  let minc := min r (min g b)
  let delta := maxc - minc
  if delta = 0 then 0
  else if maxc = r then 60 * qmod6 ((g - b) / delta)
  else if maxc = g then 60 * ((b - r) / delta + 2)
  else 60 * ((r - g) / delta + 4)

/-- Lightness computation of `hex_to_hsl` (the `l` variable):
`(max_c + min_c) / 2`. -/
def lightQ (r g b : ℚ) : ℚ :=
  (max r (max g b) + min r (min g b)) / 2

/-- Saturation computation of `hex_to_hsl` (the `s` variable): `0` when
`delta == 0`, else `delta / (1 - |2 l - 1|)`. -/
def satQ (r g b : ℚ) : ℚ :=
  let maxc := max r (max g b)
  let minc := min r (min g b)
  let delta := maxc - minc
  if delta = 0 then 0 else delta / (1 - |2 * lightQ r g b - 1|)

/-- Arithmetic core of `hex_to_hsl`: normalize the three channels by 255,
compute hue, saturation, lightness, and round as the script does
(`round(h)`, `round(s * 100)`, `round(l * 100)`). -/
def hslOfRGB (R G B : ℤ) : ℤ × ℤ × ℤ :=
  let r : ℚ := (R : ℚ) / 255
  let g : ℚ := (G : ℚ) / 255
  let b : ℚ := (B : ℚ) / 255
  (pyRound (hueQ r g b), pyRound (satQ r g b * 100), pyRound (lightQ r g b * 100))

/-- Output formatting of `hex_to_hsl`: the f-string produces
`"H S% L%"`. -/
def formatHslT (t : ℤ × ℤ × ℤ) : String :=
  toString t.1 ++ " " ++ toString t.2.1 ++ "% " ++ toString t.2.2 ++ "%"

/-- Channel parsing of `hex_to_hsl`: `hex_color.lstrip('#')` removes every
leading `#`, then `int(hex_color[i:i+2], 16) for i in (0, 2, 4)` parses the
three channels; any `ValueError` aborts the function. -/
def parseHexChannels (s : String) : Option (ℤ × ℤ × ℤ) :=
  let t := s.data.dropWhile (fun c => c = '#')
  match pyIntHex (pySlice t 0 2), pyIntHex (pySlice t 2 4), pyIntHex (pySlice t 4 6) with
  | some r, some g, some b => some (r, g, b)
  | _, _, _ => none

/-- The function `hex_to_hsl` of `src/scripts/hex_to_hsl.py`; `none` models
an uncaught parse exception. -/
def hex_to_hsl (s : String) : Option String :=
  (parseHexChannels s).map (fun rgb => formatHslT (hslOfRGB rgb.1 rgb.2.1 rgb.2.2))

/-- The function `hex_to_hsl_hex` of `src/scripts/update_color.py`, whose
body is textually identical to `hex_to_hsl` of `hex_to_hsl.py`. -/
def hex_to_hsl_hex (s : String) : Option String :=
  (parseHexChannels s).map (fun rgb => formatHslT (hslOfRGB rgb.1 rgb.2.1 rgb.2.2))

/-! ## Division-guarded variant of the converter core (for the
no-division-by-zero claim): every division whose divisor could in principle
be zero goes through `safeDiv`. -/

/-- Division that records a zero divisor instead of defaulting. -/
def safeDiv (a b : ℚ) : Option ℚ :=
  if b = 0 then none else some (a / b)

/-- The hue computation with each division by `delta` checked. -/
def hueQchecked (r g b : ℚ) : Option ℚ :=
  let maxc := max r (max g b)
  let minc := min r (min g b)
  let delta := maxc - minc
  if delta = 0 then some 0
  else if maxc = r then (safeDiv (g - b) delta).map (fun q => 60 * qmod6 q)
  else if maxc = g then (safeDiv (b - r) delta).map (fun q => 60 * (q + 2))
  else (safeDiv (r - g) delta).map (fun q => 60 * (q + 4))

/-- The saturation computation with the division by `1 - |2 l - 1|` checked. -/
def satQchecked (r g b : ℚ) : Option ℚ :=
  let maxc := max r (max g b)
  let minc := min r (min g b)
  let delta := maxc - minc
  if delta = 0 then some 0 else safeDiv delta (1 - |2 * lightQ r g b - 1|)

/-- The converter core with every guarded division checked; `none` would mean
a `ZeroDivisionError` is reached. -/
def hslOfRGBchecked (R G B : ℤ) : Option (ℤ × ℤ × ℤ) :=
  let r : ℚ := (R : ℚ) / 255
  let g : ℚ := (G : ℚ) / 255
  let b : ℚ := (B : ℚ) / 255
  match hueQchecked r g b, satQchecked r g b with
  | some h, some s => some (pyRound h, pyRound (s * 100), pyRound (lightQ r g b * 100))
  | _, _ => none

/-- Validity predicate of the explicit claims about `hex_to_hsl`: the input
is exactly six hexadecimal digits, optionally preceded by one `#`. -/
def ValidHex6 (s : String) : Prop :=
  ∃ l : List Char, (s.data = l ∨ s.data = '#' :: l) ∧ l.length = 6 ∧
    ∀ c ∈ l, (hexDigit? c).isSome

/-! ## The sampler of `src/scripts/extract_logo_color.py` -/

/-- An in-memory raster as the scripts see it: dimensions and a pixel read
function returning the channel values at a coordinate. -/
structure PyImage where
  width : ℕ
  height : ℕ
  pix : ℕ → ℕ → List ℕ

/-- PIL `Image.getpixel((x, y))`: raises `IndexError` (here `none`) unless
`0 ≤ x < width` and `0 ≤ y < height`; no negative indexing, no clamping. -/
def getpixel (img : PyImage) (x y : ℤ) : Option (List ℕ) :=
  if 0 ≤ x ∧ x < img.width ∧ 0 ≤ y ∧ y < img.height then
    some (img.pix x.toNat y.toNat)
  else none

/-- The `top_left` sample of `extract_logo_color.py`:
`img.getpixel((100, 100))`, with no reduction of the inset. -/
def top_left (img : PyImage) : Option (List ℕ) := getpixel img 100 100

/-- The `bottom_right` sample:
`img.getpixel((img.width - 100, img.height - 100))`. -/
def bottom_right (img : PyImage) : Option (List ℕ) :=
  getpixel img ((img.width : ℤ) - 100) ((img.height : ℤ) - 100)

/-- The `center` sample: `img.getpixel((img.width // 2, img.height // 2))`. -/
def center (img : PyImage) : Option (List ℕ) :=
  getpixel img ((img.width : ℤ) / 2) ((img.height : ℤ) / 2)

/-- Lowercase hexadecimal digit characters, as `'{:02x}'.format` emits. -/
def hexCharLower (d : ℕ) : Char :=
  if d ≤ 9 then Char.ofNat (48 + d) else Char.ofNat (87 + d)

/-- Hexadecimal digit list of a natural number, most significant first. -/
def natHexDigits (n : ℕ) : List Char :=
  if _h : n < 16 then [hexCharLower n]
  else natHexDigits (n / 16) ++ [hexCharLower (n % 16)]
  termination_by n
  decreasing_by exact Nat.div_lt_self (by omega) (by omega)

/-- Python `'{:02x}'.format(n)` for a natural number: lowercase hexadecimal,
left-padded with `0` to width at least 2. -/
def pyFormat02x (n : ℕ) : String :=
  let ds := natHexDigits n
  String.mk (List.replicate (2 - ds.length) '0' ++ ds)

/-- The function `rgb_to_hex` of `extract_logo_color.py`: drop the alpha
channel of a 4-tuple, then format the first three channels with
`'#{:02x}{:02x}{:02x}'.format(*rgb)` (extra positional arguments are ignored
by `str.format`; fewer than three raise, modelled by `none`). -/
def rgb_to_hex (rgb : List ℕ) : Option String :=
  let rgb := if rgb.length = 4 then rgb.take 3 else rgb
  match rgb with
  | r :: g :: b :: _ =>
    some ("#" ++ pyFormat02x r ++ pyFormat02x g ++ pyFormat02x b)
  | _ => none

/-! ## The generator of `src/scripts/generate_logo.py` -/

/-- The fixed size table of `generate_logo.py` (insertion order of the
Python dict). -/
def logoSizes : List (String × (ℕ × ℕ)) :=
  [("32", (32, 32)), ("64", (64, 64)), ("128", (128, 128)), ("256", (256, 256))]

/-- PIL `img.resize(size, LANCZOS)`: a new image of exactly the requested
dimensions; the pixel content comes from the library's resampling kernel,
taken here as a parameter of the model. -/
def pilResize (resampler : PyImage → ℕ × ℕ → ℕ → ℕ → List ℕ)
    (img : PyImage) (size : ℕ × ℕ) : PyImage :=
  ⟨size.1, size.2, resampler img size⟩

/-- The resize loop of `generate_logo.py`: one `logo-{name}.png` output per
entry of the size table. -/
def generate_logo_outputs (resampler : PyImage → ℕ × ℕ → ℕ → ℕ → List ℕ)
    (src : PyImage) : List (String × PyImage) :=
  logoSizes.map (fun e => ("public/logo/logo-" ++ e.1 ++ ".png", pilResize resampler src e.2))

/-- The fixed frame list passed to the ICO encoder (`ico_sizes`). -/
def ico_sizes : List (ℕ × ℕ) := [(16, 16), (32, 32), (64, 64)]

/-- The `favicon-new.ico` output of `generate_logo.py`: path and the square
frame sizes requested from the encoder. -/
def favicon_new_ico : String × List (ℕ × ℕ) :=
  ("public/favicon-new.ico", ico_sizes)

/-! ## The generator of `src/scripts/generate_favicon.py` -/

/-- Names bound at module level in `generate_favicon.py`: the two top-level
imports and the three function definitions.  `io` and the PIL names are
imported only inside function bodies, so they are not module globals. -/
def favicon_module_globals : List String :=
  ["base64", "Path", "generate_favicon_svg", "generate_favicon_png", "main"]

/-- Uncaught Python exceptions that `main` of `generate_favicon.py` can
surface. -/
inductive PyErr where
  | nameError : String → PyErr
  deriving DecidableEq, Repr

/-- The function `generate_favicon_png`: returns PNG bytes (abstracted to a
unit marker) when the PIL imports inside its own `try` succeed, and `None`
when they fail. -/
def generate_favicon_png (pilAvailable : Bool) : Option Unit :=
  if pilAvailable then some () else none

/-- The function `main` of `generate_favicon.py`.  It always writes
`favicon.svg`.  When `from PIL import Image` fails, the `except ImportError`
arm reports SVG-only output.  When PIL is available it writes the 64x64 PNG,
then evaluates `Image.open(io.BytesIO(png_data))`: the name `io` is looked
up among the module globals, and a miss raises `NameError`, which the
`except ImportError` clause does not catch, so the run fails with the files
written so far. -/
def favicon_main (pilAvailable : Bool) : Except (PyErr × List String) (List String) :=
  let written := ["public/favicon.svg"]
  if pilAvailable then
    match generate_favicon_png pilAvailable with
    | some _ =>
      let written := written ++ ["public/favicon-64x64.png"]
      if "io" ∈ favicon_module_globals then
        Except.ok (written ++ ["public/favicon.ico"])
      else
        Except.error (PyErr.nameError "io", written)
    | none => Except.ok written
  else
    Except.ok written

/-! ## Lemmas about the rounding and modulo primitives -/

/-- Banker's rounding never moves below the floor. -/
lemma floor_le_pyRound (x : ℚ) : ⌊x⌋ ≤ pyRound x := by
  unfold pyRound
  split_ifs <;> omega

/-- Banker's rounding never moves above the floor plus one. -/
lemma pyRound_le_floor_add_one (x : ℚ) : pyRound x ≤ ⌊x⌋ + 1 := by
  unfold pyRound
  split_ifs <;> omega

/-- An integer upper bound on the argument bounds the rounded value. -/
lemma pyRound_le_of_le (x : ℚ) (m : ℤ) (h : x ≤ (m : ℚ)) : pyRound x ≤ m := by
  have hfl : ⌊x⌋ ≤ m := by
    have := Int.floor_le_floor h
    simpa using this
  rcases lt_or_eq_of_le hfl with hlt | heq
  · have := pyRound_le_floor_add_one x
    omega
  · have hx : x - (⌊x⌋ : ℚ) ≤ 0 := by
      rw [heq]
      linarith
    unfold pyRound
    rw [if_pos (by linarith)]
    omega

/-- An integer lower bound on the argument bounds the rounded value. -/
lemma le_pyRound_of_le (x : ℚ) (m : ℤ) (h : (m : ℚ) ≤ x) : m ≤ pyRound x := by
  have hfl : m ≤ ⌊x⌋ := Int.le_floor.mpr h
  have := floor_le_pyRound x
  omega

/-- Value of banker's rounding when the fraction is below one half. -/
lemma pyRound_eq_of_lt_half (x : ℚ) (n : ℤ) (h1 : (n : ℚ) ≤ x) (h2 : x < (n : ℚ) + 1 / 2) :
    pyRound x = n := by
  have hfl : ⌊x⌋ = n := by
    rw [Int.floor_eq_iff]
    exact ⟨h1, by linarith⟩
  unfold pyRound
  rw [hfl, if_pos (by linarith)]

/-- Value of banker's rounding when the fraction is above one half. -/
lemma pyRound_eq_of_half_lt (x : ℚ) (n : ℤ) (h1 : (n : ℚ) + 1 / 2 < x) (h2 : x < (n : ℚ) + 1) :
    pyRound x = n + 1 := by
  have hfl : ⌊x⌋ = n := by
    rw [Int.floor_eq_iff]
    exact ⟨by linarith, by linarith⟩
  unfold pyRound
  rw [hfl, if_neg (by linarith), if_pos (by linarith)]

/-- Banker's rounding of an integer is that integer. -/
lemma pyRound_intCast (n : ℤ) : pyRound (n : ℚ) = n := by
  apply pyRound_eq_of_lt_half
  · exact le_refl _
  · linarith

/-- The float modulo by 6 is nonnegative. -/
lemma qmod6_nonneg (x : ℚ) : 0 ≤ qmod6 x := by
  unfold qmod6
  have h : (⌊x / 6⌋ : ℚ) ≤ x / 6 := Int.floor_le _
  linarith

/-- The float modulo by 6 is below 6. -/
lemma qmod6_lt_six (x : ℚ) : qmod6 x < 6 := by
  unfold qmod6
  have h : x / 6 < ⌊x / 6⌋ + 1 := Int.lt_floor_add_one _
  linarith

/-! ## Range facts about the converter core -/

/-- The maximum channel is at least the minimum channel. -/
lemma minc_le_maxc (r g b : ℚ) : min r (min g b) ≤ max r (max g b) :=
  le_trans (min_le_left _ _) (le_max_left _ _)

/-- The hue value is nonnegative, for all channel values. -/
lemma hueQ_nonneg (r g b : ℚ) : 0 ≤ hueQ r g b := by
  unfold hueQ
  dsimp only
  set maxc := max r (max g b) with hmax
  set minc := min r (min g b) with hmin
  have hle : minc ≤ maxc := minc_le_maxc r g b
  split_ifs with h1 h2 h3
  · exact le_refl 0
  · have := qmod6_nonneg ((g - b) / (maxc - minc))
    linarith
  · have hd : 0 < maxc - minc := lt_of_le_of_ne (by linarith) (fun h => h1 h.symm)
    have hb : b - r ≤ maxc - minc := by
      have h1 : b ≤ maxc := le_trans (le_max_right g b) (le_max_right r _)
      have h2 : minc ≤ r := min_le_left _ _
      linarith
    have hb2 : -(maxc - minc) ≤ b - r := by
      have h1 : r ≤ maxc := le_max_left _ _
      have h2 : minc ≤ b := le_trans (min_le_right r _) (min_le_right g b)
      linarith
    have hq : (-1 : ℚ) ≤ (b - r) / (maxc - minc) := by
      rw [le_div_iff hd]
      linarith
    linarith
  · have hd : 0 < maxc - minc := lt_of_le_of_ne (by linarith) (fun h => h1 h.symm)
    have hb2 : -(maxc - minc) ≤ r - g := by
      have h1 : g ≤ maxc := le_trans (le_max_left g b) (le_max_right r _)
      have h2 : minc ≤ r := min_le_left _ _
      linarith
    have hq : (-1 : ℚ) ≤ (r - g) / (maxc - minc) := by
      rw [le_div_iff hd]
      linarith
    linarith

/-- The hue value is at most 360, for all channel values (it is below 360
except that rounding can later reach 360). -/
lemma hueQ_le_360 (r g b : ℚ) : hueQ r g b ≤ 360 := by
  unfold hueQ
  dsimp only
  set maxc := max r (max g b) with hmax
  set minc := min r (min g b) with hmin
  have hle : minc ≤ maxc := minc_le_maxc r g b
  split_ifs with h1 h2 h3
  · norm_num
  · have := qmod6_lt_six ((g - b) / (maxc - minc))
    linarith
  · have hd : 0 < maxc - minc := lt_of_le_of_ne (by linarith) (fun h => h1 h.symm)
    have hb : b - r ≤ maxc - minc := by
      have hb1 : b ≤ maxc := le_trans (le_max_right g b) (le_max_right r _)
      have hb2 : minc ≤ r := min_le_left _ _
      linarith
    have hq : (b - r) / (maxc - minc) ≤ 1 := by
      rw [div_le_one hd]
      linarith
    linarith
  · have hd : 0 < maxc - minc := lt_of_le_of_ne (by linarith) (fun h => h1 h.symm)
    have hb : r - g ≤ maxc - minc := by
      have hb1 : r ≤ maxc := le_max_left _ _
      have hb2 : minc ≤ g := le_trans (min_le_right r _) (min_le_left g b)
      linarith
    have hq : (r - g) / (maxc - minc) ≤ 1 := by
      rw [div_le_one hd]
      linarith
    linarith

/-- Bounds of the lightness value for channels in the unit interval. -/
lemma lightQ_bounds (r g b : ℚ) (hr0 : 0 ≤ r) (hr1 : r ≤ 1) (hg0 : 0 ≤ g) (hg1 : g ≤ 1)
    (hb0 : 0 ≤ b) (hb1 : b ≤ 1) : 0 ≤ lightQ r g b ∧ lightQ r g b ≤ 1 := by
  unfold lightQ
  have h1 : max r (max g b) ≤ 1 := max_le hr1 (max_le hg1 hb1)
  have h2 : 0 ≤ min r (min g b) := le_min hr0 (le_min hg0 hb0)
  have h3 := minc_le_maxc r g b
  constructor <;> linarith

/-- For channels in the unit interval with a nonzero spread, the saturation
denominator `1 - |2 l - 1|` is at least the spread, hence positive. -/
lemma satDenom_ge_delta (r g b : ℚ) (hr0 : 0 ≤ r) (hr1 : r ≤ 1) (hg0 : 0 ≤ g) (hg1 : g ≤ 1)
    (hb0 : 0 ≤ b) (hb1 : b ≤ 1) :
    max r (max g b) - min r (min g b) ≤ 1 - |2 * lightQ r g b - 1| := by
  unfold lightQ
  have h1 : max r (max g b) ≤ 1 := max_le hr1 (max_le hg1 hb1)
  have h2 : 0 ≤ min r (min g b) := le_min hr0 (le_min hg0 hb0)
  rcases abs_cases (2 * ((max r (max g b) + min r (min g b)) / 2) - 1) with ⟨heq, _⟩ | ⟨heq, _⟩ <;>
    rw [heq] <;> linarith

/-- Bounds of the saturation value for channels in the unit interval. -/
lemma satQ_bounds (r g b : ℚ) (hr0 : 0 ≤ r) (hr1 : r ≤ 1) (hg0 : 0 ≤ g) (hg1 : g ≤ 1)
    (hb0 : 0 ≤ b) (hb1 : b ≤ 1) : 0 ≤ satQ r g b ∧ satQ r g b ≤ 1 := by
  unfold satQ
  dsimp only
  have hle := minc_le_maxc r g b
  split_ifs with h1
  · norm_num
  · have hd : 0 < max r (max g b) - min r (min g b) :=
      lt_of_le_of_ne (by linarith) (fun h => h1 h.symm)
    have hden := satDenom_ge_delta r g b hr0 hr1 hg0 hg1 hb0 hb1
    have hdpos : 0 < 1 - |2 * lightQ r g b - 1| := lt_of_lt_of_le hd hden
    constructor
    · exact div_nonneg (by linarith) (by linarith)
    · rw [div_le_one hdpos]
      linarith

/-! ## Lemmas about the hexadecimal parsing -/

/-- A hexadecimal digit has value at most 15. -/
lemma hexDigit_le_15 (c : Char) (d : ℕ) (h : hexDigit? c = some d) : d ≤ 15 := by
  unfold hexDigit? at h
  split_ifs at h with h1 h2 h3 <;> injection h with h <;> omega

/-- A hexadecimal digit character has code point at least 48. -/
lemma hexDigit_code_ge (c : Char) (d : ℕ) (h : hexDigit? c = some d) : 48 ≤ c.toNat := by
  unfold hexDigit? at h
  split_ifs at h with h1 h2 h3 <;> omega

/-- A hexadecimal digit character is none of the special characters the
parser treats specially. -/
lemma hexDigit_not_special (c : Char) (d : ℕ) (h : hexDigit? c = some d) :
    isPySpace c = false ∧ c ≠ '+' ∧ c ≠ '-' ∧ c ≠ '_' ∧ c ≠ 'x' ∧ c ≠ 'X' ∧ c ≠ '#' := by
  have hge := hexDigit_code_ge c d h
  have hx : c.toNat ≤ 57 ∨ (97 ≤ c.toNat ∧ c.toNat ≤ 102) ∨ (65 ≤ c.toNat ∧ c.toNat ≤ 70) := by
    unfold hexDigit? at h
    split_ifs at h with h1 h2 h3
    · omega
    · omega
    · omega
  refine ⟨?_, ?_, ?_, ?_, ?_, ?_, ?_⟩
  · unfold isPySpace
    simp only [Bool.or_eq_false_iff, decide_eq_false_iff_not]
    omega
  all_goals exact fun heq => by subst heq; revert hx hge; decide

/-- Stripping whitespace from a two-character hexadecimal slice changes
nothing. -/
lemma stripSpaces_pair (a b : Char) (ha : isPySpace a = false) (hb : isPySpace b = false) :
    stripSpaces [a, b] = [a, b] := by
  unfold stripSpaces
  simp [List.dropWhile, ha, hb]

/-- Stripping whitespace from a one-character hexadecimal slice changes
nothing. -/
lemma stripSpaces_single (a : Char) (ha : isPySpace a = false) :
    stripSpaces [a] = [a] := by
  unfold stripSpaces
  simp [List.dropWhile, ha]

/-- Parsing a two-hex-digit slice yields sixteen times the first digit plus
the second. -/
lemma pyIntHex_pair (a b : Char) (da db : ℕ)
    (ha : hexDigit? a = some da) (hb : hexDigit? b = some db) :
    pyIntHex [a, b] = some ((16 * da + db : ℕ) : ℤ) := by
  obtain ⟨hsa, hpa, hma, hua, hxa, hXa, _⟩ := hexDigit_not_special a da ha
  obtain ⟨hsb, _, _, hub, hxb, hXb, _⟩ := hexDigit_not_special b db hb
  simp [pyIntHex, stripSpaces_pair a b hsa hsb, hexNat, hexDigitsVal, hexDigitsGo,
    ha, hb, hpa, hma, hub, hxb, hXb]

/-- Parsing a one-hex-digit slice yields the digit value. -/
lemma pyIntHex_single (a : Char) (da : ℕ) (ha : hexDigit? a = some da) :
    pyIntHex [a] = some ((da : ℕ) : ℤ) := by
  obtain ⟨hsa, hpa, hma, _, _, _, _⟩ := hexDigit_not_special a da ha
  simp [pyIntHex, stripSpaces_single a hsa, hexNat, hexDigitsVal, hexDigitsGo, ha, hpa, hma]

/-- Parsing an empty slice fails, as Python `int('', 16)` does. -/
lemma pyIntHex_nil : pyIntHex [] = none := by
  rfl

/-- A list of six hexadecimal digits is six explicit characters. -/
lemma six_chars (l : List Char) (h : l.length = 6) :
    ∃ c0 c1 c2 c3 c4 c5, l = [c0, c1, c2, c3, c4, c5] := by
  match l, h with
  | [c0, c1, c2, c3, c4, c5], _ => exact ⟨c0, c1, c2, c3, c4, c5, rfl⟩

/-- Dropping leading `#` characters from a valid input leaves the six
digits. -/
lemma dropHash_of_valid (s : String) (l : List Char)
    (h : s.data = l ∨ s.data = '#' :: l) (hne : l ≠ [])
    (hhd : ∀ c ∈ l, (hexDigit? c).isSome) :
    s.data.dropWhile (fun c => c = '#') = l := by
  obtain ⟨c0, rest, rfl⟩ : ∃ c0 rest, l = c0 :: rest := by
    cases l with
    | nil => exact absurd rfl hne
    | cons c0 rest => exact ⟨c0, rest, rfl⟩
  have hc0 : (hexDigit? c0).isSome := hhd c0 (by simp)
  obtain ⟨d0, hd0⟩ := Option.isSome_iff_exists.mp hc0
  obtain ⟨_, _, _, _, _, _, hhash⟩ := hexDigit_not_special c0 d0 hd0
  rcases h with h | h <;> rw [h] <;> simp [List.dropWhile, hhash]

/-- A valid six-digit input parses into three channels, each between 0 and
255. -/
lemma parseHexChannels_of_valid (s : String) (h : ValidHex6 s) :
    ∃ R G B : ℤ, parseHexChannels s = some (R, G, B) ∧
      0 ≤ R ∧ R ≤ 255 ∧ 0 ≤ G ∧ G ≤ 255 ∧ 0 ≤ B ∧ B ≤ 255 := by
  obtain ⟨l, hform, hlen, hhd⟩ := h
  obtain ⟨c0, c1, c2, c3, c4, c5, rfl⟩ := six_chars l hlen
  obtain ⟨d0, h0⟩ := Option.isSome_iff_exists.mp (hhd c0 (by simp))
  obtain ⟨d1, h1⟩ := Option.isSome_iff_exists.mp (hhd c1 (by simp))
  obtain ⟨d2, h2⟩ := Option.isSome_iff_exists.mp (hhd c2 (by simp))
  obtain ⟨d3, h3⟩ := Option.isSome_iff_exists.mp (hhd c3 (by simp))
  obtain ⟨d4, h4⟩ := Option.isSome_iff_exists.mp (hhd c4 (by simp))
  obtain ⟨d5, h5⟩ := Option.isSome_iff_exists.mp (hhd c5 (by simp))
  have hdrop := dropHash_of_valid s _ hform (by simp) hhd
  have hs0 : pySlice [c0, c1, c2, c3, c4, c5] 0 2 = [c0, c1] := rfl
  have hs1 : pySlice [c0, c1, c2, c3, c4, c5] 2 4 = [c2, c3] := rfl
  have hs2 : pySlice [c0, c1, c2, c3, c4, c5] 4 6 = [c4, c5] := rfl
  refine ⟨((16 * d0 + d1 : ℕ) : ℤ), ((16 * d2 + d3 : ℕ) : ℤ), ((16 * d4 + d5 : ℕ) : ℤ), ?_,
    ?_, ?_, ?_, ?_, ?_, ?_⟩
  · unfold parseHexChannels
    rw [hdrop]
    dsimp only
    rw [hs0, hs1, hs2, pyIntHex_pair c0 c1 d0 d1 h0 h1,
      pyIntHex_pair c2 c3 d2 d3 h2 h3, pyIntHex_pair c4 c5 d4 d5 h4 h5]
  · positivity
  · have e0 := hexDigit_le_15 c0 d0 h0
    have e1 := hexDigit_le_15 c1 d1 h1
    omega
  · positivity
  · have e2 := hexDigit_le_15 c2 d2 h2
    have e3 := hexDigit_le_15 c3 d3 h3
    omega
  · positivity
  · have e4 := hexDigit_le_15 c4 d4 h4
    have e5 := hexDigit_le_15 c5 d5 h5
    omega

/-- A channel value between 0 and 255 normalizes into the unit interval. -/
lemma channel_unit (R : ℤ) (h0 : 0 ≤ R) (h1 : R ≤ 255) :
    0 ≤ (R : ℚ) / 255 ∧ (R : ℚ) / 255 ≤ 1 := by
  constructor
  · positivity
  · rw [div_le_one (by norm_num)]
    exact_mod_cast h1

/-- Bounds of the rounded triple for channels between 0 and 255: hue in
`[0, 360]`, saturation and lightness in `[0, 100]`. -/
lemma hslOfRGB_bounds (R G B : ℤ) (hR0 : 0 ≤ R) (hR1 : R ≤ 255) (hG0 : 0 ≤ G) (hG1 : G ≤ 255)
    (hB0 : 0 ≤ B) (hB1 : B ≤ 255) :
    0 ≤ (hslOfRGB R G B).1 ∧ (hslOfRGB R G B).1 ≤ 360 ∧
      0 ≤ (hslOfRGB R G B).2.1 ∧ (hslOfRGB R G B).2.1 ≤ 100 ∧
      0 ≤ (hslOfRGB R G B).2.2 ∧ (hslOfRGB R G B).2.2 ≤ 100 := by
  obtain ⟨hr0, hr1⟩ := channel_unit R hR0 hR1
  obtain ⟨hg0, hg1⟩ := channel_unit G hG0 hG1
  obtain ⟨hb0, hb1⟩ := channel_unit B hB0 hB1
  set r : ℚ := (R : ℚ) / 255
  set g : ℚ := (G : ℚ) / 255
  set b : ℚ := (B : ℚ) / 255
  have hhue0 := hueQ_nonneg r g b
  have hhue1 := hueQ_le_360 r g b
  obtain ⟨hsat0, hsat1⟩ := satQ_bounds r g b hr0 hr1 hg0 hg1 hb0 hb1
  obtain ⟨hl0, hl1⟩ := lightQ_bounds r g b hr0 hr1 hg0 hg1 hb0 hb1
  have hdef : hslOfRGB R G B =
      (pyRound (hueQ r g b), pyRound (satQ r g b * 100), pyRound (lightQ r g b * 100)) := rfl
  rw [hdef]
  refine ⟨?_, ?_, ?_, ?_, ?_, ?_⟩
  · exact le_pyRound_of_le _ 0 (by exact_mod_cast hhue0)
  · exact pyRound_le_of_le _ 360 (by exact_mod_cast hhue1)
  · exact le_pyRound_of_le _ 0 (by push_cast; linarith)
  · exact pyRound_le_of_le _ 100 (by push_cast; linarith)
  · exact le_pyRound_of_le _ 0 (by push_cast; linarith)
  · exact pyRound_le_of_le _ 100 (by push_cast; linarith)

/-- The checked hue computation never reaches a zero divisor: the divisions
by `delta` sit under the `delta` nonzero branch. -/
lemma hueQchecked_eq (r g b : ℚ) : hueQchecked r g b = some (hueQ r g b) := by
  unfold hueQchecked hueQ safeDiv
  dsimp only
  split_ifs with h1 h2 h3 <;> rfl

/-- The checked saturation computation never reaches a zero divisor for
channels in the unit interval. -/
lemma satQchecked_eq (r g b : ℚ) (hr0 : 0 ≤ r) (hr1 : r ≤ 1) (hg0 : 0 ≤ g) (hg1 : g ≤ 1)
    (hb0 : 0 ≤ b) (hb1 : b ≤ 1) : satQchecked r g b = some (satQ r g b) := by
  unfold satQchecked satQ safeDiv
  dsimp only
  split_ifs with h1 h2
  · rfl
  · exfalso
    have hle := minc_le_maxc r g b
    have hd : 0 < max r (max g b) - min r (min g b) :=
      lt_of_le_of_ne (by linarith) (fun h => h1 h.symm)
    have hden := satDenom_ge_delta r g b hr0 hr1 hg0 hg1 hb0 hb1
    rw [h2] at hden
    linarith
  · rfl

/-- The fully-checked core agrees with the unchecked core on valid
channels: no division by zero is reached. -/
lemma hslOfRGBchecked_eq (R G B : ℤ) (hR0 : 0 ≤ R) (hR1 : R ≤ 255) (hG0 : 0 ≤ G) (hG1 : G ≤ 255)
    (hB0 : 0 ≤ B) (hB1 : B ≤ 255) :
    hslOfRGBchecked R G B = some (hslOfRGB R G B) := by
  obtain ⟨hr0, hr1⟩ := channel_unit R hR0 hR1
  obtain ⟨hg0, hg1⟩ := channel_unit G hG0 hG1
  obtain ⟨hb0, hb1⟩ := channel_unit B hB0 hB1
  unfold hslOfRGBchecked hslOfRGB
  dsimp only
  rw [hueQchecked_eq, satQchecked_eq _ _ _ hr0 hr1 hg0 hg1 hb0 hb1]

/-- On a gray input the spread is zero, so the hue is zero. -/
lemma hueQ_gray (r : ℚ) : hueQ r r r = 0 := by
  unfold hueQ
  dsimp only
  rw [if_pos]
  simp

/-- On a gray input the spread is zero, so the saturation is zero. -/
lemma satQ_gray (r : ℚ) : satQ r r r = 0 := by
  unfold satQ
  dsimp only
  rw [if_pos]
  simp

/-- Banker's rounding of zero is zero. -/
lemma pyRound_zero : pyRound (0 : ℚ) = 0 := by
  rw [show ((0 : ℚ)) = ((0 : ℤ) : ℚ) by norm_num]
  exact pyRound_intCast 0

/-- The rounded triple of a gray input has hue 0 and saturation 0. -/
lemma hslOfRGB_gray (R : ℤ) :
    hslOfRGB R R R =
      (0, 0, pyRound (lightQ ((R : ℚ) / 255) ((R : ℚ) / 255) ((R : ℚ) / 255) * 100)) := by
  have hdef : hslOfRGB R R R =
      (pyRound (hueQ ((R : ℚ) / 255) ((R : ℚ) / 255) ((R : ℚ) / 255)),
        pyRound (satQ ((R : ℚ) / 255) ((R : ℚ) / 255) ((R : ℚ) / 255) * 100),
        pyRound (lightQ ((R : ℚ) / 255) ((R : ℚ) / 255) ((R : ℚ) / 255) * 100)) := rfl
  rw [hdef, hueQ_gray, satQ_gray]
  norm_num [pyRound_zero]

/-- Unfolded form of the hue computation (the `let` bindings expanded). -/
lemma hueQ_def (r g b : ℚ) :
    hueQ r g b =
      (if max r (max g b) - min r (min g b) = 0 then 0
       else if max r (max g b) = r then
         60 * qmod6 ((g - b) / (max r (max g b) - min r (min g b)))
       else if max r (max g b) = g then
         60 * ((b - r) / (max r (max g b) - min r (min g b)) + 2)
       else 60 * ((r - g) / (max r (max g b) - min r (min g b)) + 4)) := rfl

/-- Unfolded form of the saturation computation. -/
lemma satQ_def (r g b : ℚ) :
    satQ r g b =
      (if max r (max g b) - min r (min g b) = 0 then 0
       else (max r (max g b) - min r (min g b)) / (1 - |2 * lightQ r g b - 1|)) := rfl

/-- Hue branch when the maximum channel is the red channel. -/
lemma hueQ_eq_red (r g b : ℚ) (h1 : max r (max g b) - min r (min g b) ≠ 0)
    (h2 : max r (max g b) = r) :
    hueQ r g b = 60 * qmod6 ((g - b) / (max r (max g b) - min r (min g b))) := by
  rw [hueQ_def, if_neg h1, if_pos h2]

/-- Hue branch when the maximum channel is the blue channel. -/
lemma hueQ_eq_blue (r g b : ℚ) (h1 : max r (max g b) - min r (min g b) ≠ 0)
    (h2 : max r (max g b) ≠ r) (h3 : max r (max g b) ≠ g) :
    hueQ r g b = 60 * ((r - g) / (max r (max g b) - min r (min g b)) + 4) := by
  rw [hueQ_def, if_neg h1, if_neg h2, if_neg h3]

/-- Saturation branch when the spread is nonzero. -/
lemma satQ_eq_pos (r g b : ℚ) (h1 : max r (max g b) - min r (min g b) ≠ 0) :
    satQ r g b = (max r (max g b) - min r (min g b)) / (1 - |2 * lightQ r g b - 1|) := by
  rw [satQ_def, if_neg h1]

/-- Unfolded form of the rounded-triple core. -/
lemma hslOfRGB_def (R G B : ℤ) :
    hslOfRGB R G B =
      (pyRound (hueQ ((R : ℚ) / 255) ((G : ℚ) / 255) ((B : ℚ) / 255)),
        pyRound (satQ ((R : ℚ) / 255) ((G : ℚ) / 255) ((B : ℚ) / 255) * 100),
        pyRound (lightQ ((R : ℚ) / 255) ((G : ℚ) / 255) ((B : ℚ) / 255) * 100)) := rfl

/-- Concrete evaluation: the triple of `#3b5894` is `(220, 43, 41)`. -/
lemma hslOfRGB_3b5894 : hslOfRGB 59 88 148 = (220, 43, 41) := by
  rw [hslOfRGB_def]
  have hc : ((59 : ℤ) : ℚ) / 255 = 59 / 255 ∧ ((88 : ℤ) : ℚ) / 255 = 88 / 255 ∧
      ((148 : ℤ) : ℚ) / 255 = 148 / 255 := by norm_num
  rw [hc.1, hc.2.1, hc.2.2]
  have hmax : max ((59 : ℚ) / 255) (max ((88 : ℚ) / 255) ((148 : ℚ) / 255)) = (148 : ℚ) / 255 := by
    rw [max_eq_right (by norm_num : (88 : ℚ) / 255 ≤ 148 / 255),
      max_eq_right (by norm_num : (59 : ℚ) / 255 ≤ 148 / 255)]
  have hmin : min ((59 : ℚ) / 255) (min ((88 : ℚ) / 255) ((148 : ℚ) / 255)) = (59 : ℚ) / 255 := by
    rw [min_eq_left (by norm_num : (88 : ℚ) / 255 ≤ 148 / 255),
      min_eq_left (by norm_num : (59 : ℚ) / 255 ≤ 88 / 255)]
  have hlight : lightQ ((59 : ℚ) / 255) ((88 : ℚ) / 255) ((148 : ℚ) / 255) = 69 / 170 := by
    unfold lightQ
    rw [hmax, hmin]
    norm_num
  have hhue : hueQ ((59 : ℚ) / 255) ((88 : ℚ) / 255) ((148 : ℚ) / 255) = 19620 / 89 := by
    rw [hueQ_eq_blue _ _ _ (by rw [hmax, hmin]; norm_num) (by rw [hmax]; norm_num)
      (by rw [hmax]; norm_num), hmax, hmin]
    norm_num
  have hsat : satQ ((59 : ℚ) / 255) ((88 : ℚ) / 255) ((148 : ℚ) / 255) = 89 / 207 := by
    rw [satQ_eq_pos _ _ _ (by rw [hmax, hmin]; norm_num), hmax, hmin, hlight]
    rw [abs_of_nonpos (by norm_num)]
    norm_num
  rw [hhue, hsat, hlight]
  have e1 : pyRound ((19620 : ℚ) / 89) = 220 := by
    rw [show (220 : ℤ) = 220 from rfl]
    apply pyRound_eq_of_lt_half _ 220 <;> norm_num
  have e2 : pyRound ((89 : ℚ) / 207 * 100) = 43 := by
    have : ((89 : ℚ) / 207 * 100) = 8900 / 207 := by norm_num
    rw [this, show (43 : ℤ) = 42 + 1 from rfl]
    apply pyRound_eq_of_half_lt _ 42 <;> norm_num
  have e3 : pyRound ((69 : ℚ) / 170 * 100) = 41 := by
    have : ((69 : ℚ) / 170 * 100) = 690 / 17 := by norm_num
    rw [this, show (41 : ℤ) = 40 + 1 from rfl]
    apply pyRound_eq_of_half_lt _ 40 <;> norm_num
  rw [e1, e2, e3]

/-- Concrete evaluation: the triple of `#ff0001` is `(360, 100, 50)`; the
hue rounds up to 360. -/
lemma hslOfRGB_ff0001 : hslOfRGB 255 0 1 = (360, 100, 50) := by
  rw [hslOfRGB_def]
  have hc : ((255 : ℤ) : ℚ) / 255 = 1 ∧ ((0 : ℤ) : ℚ) / 255 = 0 ∧
      ((1 : ℤ) : ℚ) / 255 = 1 / 255 := by norm_num
  rw [hc.1, hc.2.1, hc.2.2]
  have hmax : max (1 : ℚ) (max (0 : ℚ) ((1 : ℚ) / 255)) = 1 := by
    rw [max_eq_right (by norm_num : (0 : ℚ) ≤ 1 / 255),
      max_eq_left (by norm_num : (1 : ℚ) / 255 ≤ 1)]
  have hmin : min (1 : ℚ) (min (0 : ℚ) ((1 : ℚ) / 255)) = 0 := by
    rw [min_eq_left (by norm_num : (0 : ℚ) ≤ 1 / 255),
      min_eq_right (by norm_num : (0 : ℚ) ≤ 1)]
  have hlight : lightQ (1 : ℚ) (0 : ℚ) ((1 : ℚ) / 255) = 1 / 2 := by
    unfold lightQ
    rw [hmax, hmin]
    norm_num
  have hfl : ⌊((0 : ℚ) - 1 / 255) / (1 - 0) / 6⌋ = -1 := by
    rw [Int.floor_eq_iff]
    norm_num
  have hhue : hueQ (1 : ℚ) (0 : ℚ) ((1 : ℚ) / 255) = 6116 / 17 := by
    rw [hueQ_eq_red _ _ _ (by rw [hmax, hmin]; norm_num) (by rw [hmax])]
    rw [hmax, hmin]
    unfold qmod6
    rw [hfl]
    norm_num
  have hsat : satQ (1 : ℚ) (0 : ℚ) ((1 : ℚ) / 255) = 1 := by
    rw [satQ_eq_pos _ _ _ (by rw [hmax, hmin]; norm_num), hmax, hmin, hlight]
    norm_num
  rw [hhue, hsat, hlight]
  have e1 : pyRound ((6116 : ℚ) / 17) = 360 := by
    rw [show (360 : ℤ) = 359 + 1 from rfl]
    apply pyRound_eq_of_half_lt _ 359 <;> norm_num
  have e2 : pyRound ((1 : ℚ) * 100) = 100 := by
    rw [show ((1 : ℚ) * 100) = ((100 : ℤ) : ℚ) by norm_num]
    exact pyRound_intCast 100
  have e3 : pyRound ((1 : ℚ) / 2 * 100) = 50 := by
    rw [show ((1 : ℚ) / 2 * 100) = ((50 : ℤ) : ℚ) by norm_num]
    exact pyRound_intCast 50
  rw [e1, e2, e3]

/-- Concrete parse: `#3b5894` yields channels `(59, 88, 148)`. -/
lemma parse_3b5894 : parseHexChannels "#3b5894" = some (59, 88, 148) := by decide

/-- Concrete parse: `#ff0001` yields channels `(255, 0, 1)`. -/
lemma parse_ff0001 : parseHexChannels "#ff0001" = some (255, 0, 1) := by decide

/-- The converter on a parsed input returns the formatted rounded triple. -/
lemma hex_to_hsl_of_parse (s : String) (R G B : ℤ)
    (h : parseHexChannels s = some (R, G, B)) :
    hex_to_hsl s = some (formatHslT (hslOfRGB R G B)) := by
  unfold hex_to_hsl
  rw [h]
  rfl

/-- Whether a string of pure hexadecimal digits converts is decided by its
length alone: at least five characters parse (the first six are used), four
or fewer raise. -/
lemma hex_to_hsl_hexOnly_iff (s : String) (hhd : ∀ c ∈ s.data, (hexDigit? c).isSome) :
    (hex_to_hsl s).isSome ↔ 5 ≤ s.data.length := by
  have hmap : (hex_to_hsl s).isSome = (parseHexChannels s).isSome := by
    unfold hex_to_hsl
    cases parseHexChannels s <;> rfl
  rw [hmap]
  have hdrop : s.data.dropWhile (fun c => c = '#') = s.data := by
    cases hl : s.data with
    | nil => simp
    | cons c0 rest =>
      have hmem : (hexDigit? c0).isSome := by
        apply hhd
        rw [hl]
        simp
      obtain ⟨d0, hd0⟩ := Option.isSome_iff_exists.mp hmem
      obtain ⟨_, _, _, _, _, _, hhash⟩ := hexDigit_not_special c0 d0 hd0
      simp [List.dropWhile, hhash]
  unfold parseHexChannels
  rw [hdrop]
  dsimp only
  revert hhd
  rcases s.data with _ | ⟨c0, _ | ⟨c1, _ | ⟨c2, _ | ⟨c3, _ | ⟨c4, _ | ⟨c5, rest⟩⟩⟩⟩⟩⟩ <;>
    intro hhd
  · rw [show pySlice [] 0 2 = ([] : List Char) from rfl, pyIntHex_nil]
    simp
  · obtain ⟨d0, h0⟩ := Option.isSome_iff_exists.mp (hhd c0 (by simp))
    rw [show pySlice [c0] 0 2 = [c0] from rfl, show pySlice [c0] 2 4 = ([] : List Char) from rfl,
      pyIntHex_single c0 d0 h0, pyIntHex_nil]
    simp
  · obtain ⟨d0, h0⟩ := Option.isSome_iff_exists.mp (hhd c0 (by simp))
    obtain ⟨d1, h1⟩ := Option.isSome_iff_exists.mp (hhd c1 (by simp))
    rw [show pySlice [c0, c1] 0 2 = [c0, c1] from rfl,
      show pySlice [c0, c1] 2 4 = ([] : List Char) from rfl,
      pyIntHex_pair c0 c1 d0 d1 h0 h1, pyIntHex_nil]
    simp
  · obtain ⟨d0, h0⟩ := Option.isSome_iff_exists.mp (hhd c0 (by simp))
    obtain ⟨d1, h1⟩ := Option.isSome_iff_exists.mp (hhd c1 (by simp))
    obtain ⟨d2, h2⟩ := Option.isSome_iff_exists.mp (hhd c2 (by simp))
    rw [show pySlice [c0, c1, c2] 0 2 = [c0, c1] from rfl,
      show pySlice [c0, c1, c2] 2 4 = [c2] from rfl,
      show pySlice [c0, c1, c2] 4 6 = ([] : List Char) from rfl,
      pyIntHex_pair c0 c1 d0 d1 h0 h1, pyIntHex_single c2 d2 h2, pyIntHex_nil]
    simp
  · obtain ⟨d0, h0⟩ := Option.isSome_iff_exists.mp (hhd c0 (by simp))
    obtain ⟨d1, h1⟩ := Option.isSome_iff_exists.mp (hhd c1 (by simp))
    obtain ⟨d2, h2⟩ := Option.isSome_iff_exists.mp (hhd c2 (by simp))
    obtain ⟨d3, h3⟩ := Option.isSome_iff_exists.mp (hhd c3 (by simp))
    rw [show pySlice [c0, c1, c2, c3] 0 2 = [c0, c1] from rfl,
      show pySlice [c0, c1, c2, c3] 2 4 = [c2, c3] from rfl,
      show pySlice [c0, c1, c2, c3] 4 6 = ([] : List Char) from rfl,
      pyIntHex_pair c0 c1 d0 d1 h0 h1, pyIntHex_pair c2 c3 d2 d3 h2 h3, pyIntHex_nil]
    simp
  · obtain ⟨d0, h0⟩ := Option.isSome_iff_exists.mp (hhd c0 (by simp))
    obtain ⟨d1, h1⟩ := Option.isSome_iff_exists.mp (hhd c1 (by simp))
    obtain ⟨d2, h2⟩ := Option.isSome_iff_exists.mp (hhd c2 (by simp))
    obtain ⟨d3, h3⟩ := Option.isSome_iff_exists.mp (hhd c3 (by simp))
    obtain ⟨d4, h4⟩ := Option.isSome_iff_exists.mp (hhd c4 (by simp))
    rw [show pySlice [c0, c1, c2, c3, c4] 0 2 = [c0, c1] from rfl,
      show pySlice [c0, c1, c2, c3, c4] 2 4 = [c2, c3] from rfl,
      show pySlice [c0, c1, c2, c3, c4] 4 6 = [c4] from rfl,
      pyIntHex_pair c0 c1 d0 d1 h0 h1, pyIntHex_pair c2 c3 d2 d3 h2 h3,
      pyIntHex_single c4 d4 h4]
    simp
  · obtain ⟨d0, h0⟩ := Option.isSome_iff_exists.mp (hhd c0 (by simp))
    obtain ⟨d1, h1⟩ := Option.isSome_iff_exists.mp (hhd c1 (by simp))
    obtain ⟨d2, h2⟩ := Option.isSome_iff_exists.mp (hhd c2 (by simp))
    obtain ⟨d3, h3⟩ := Option.isSome_iff_exists.mp (hhd c3 (by simp))
    obtain ⟨d4, h4⟩ := Option.isSome_iff_exists.mp (hhd c4 (by simp))
    obtain ⟨d5, h5⟩ := Option.isSome_iff_exists.mp (hhd c5 (by simp))
    rw [show pySlice (c0 :: c1 :: c2 :: c3 :: c4 :: c5 :: rest) 0 2 = [c0, c1] from rfl,
      show pySlice (c0 :: c1 :: c2 :: c3 :: c4 :: c5 :: rest) 2 4 = [c2, c3] from rfl,
      show pySlice (c0 :: c1 :: c2 :: c3 :: c4 :: c5 :: rest) 4 6 = [c4, c5] from rfl,
      pyIntHex_pair c0 c1 d0 d1 h0 h1, pyIntHex_pair c2 c3 d2 d3 h2 h3,
      pyIntHex_pair c4 c5 d4 d5 h4 h5]
    simp

/-! ## Lemmas about the hexadecimal formatting of `rgb_to_hex` -/

/-- One-digit case of the hexadecimal digit list. -/
lemma natHexDigits_small (n : ℕ) (h : n < 16) : natHexDigits n = [hexCharLower n] := by
  unfold natHexDigits
  rw [dif_pos h]

/-- Two-digit case of the hexadecimal digit list. -/
lemma natHexDigits_mid (n : ℕ) (h1 : 16 ≤ n) (h2 : n < 256) :
    natHexDigits n = [hexCharLower (n / 16), hexCharLower (n % 16)] := by
  unfold natHexDigits
  rw [dif_neg (by omega), natHexDigits_small (n / 16) (by omega)]
  rfl

/-- For a channel value, `'{:02x}'.format` yields exactly the two lowercase
digits of the value. -/
lemma pyFormat02x_eval (n : ℕ) (h : n ≤ 255) :
    pyFormat02x n = String.mk [hexCharLower (n / 16), hexCharLower (n % 16)] := by
  unfold pyFormat02x
  by_cases hlt : n < 16
  · rw [natHexDigits_small n hlt, Nat.div_eq_of_lt hlt, Nat.mod_eq_of_lt hlt]
    rfl
  · rw [natHexDigits_mid n (by omega) (by omega)]
    rfl

/-- Test for a lowercase hexadecimal digit character: a decimal digit or a
letter between `a` and `f`. -/
def isLowerHexChar (c : Char) : Bool :=
  (48 ≤ c.toNat && c.toNat ≤ 57) || (97 ≤ c.toNat && c.toNat ≤ 102)

/-- A digit value formats to a lowercase hexadecimal character. -/
lemma hexCharLower_mem (d : ℕ) (h : d ≤ 15) : isLowerHexChar (hexCharLower d) := by
  interval_cases d <;> decide

/-! ## Concrete images for the sampler claims -/

/-- A 50 by 50 image: smaller than the 100-pixel inset in both directions. -/
def smallLogo : PyImage := ⟨50, 50, fun _ _ => [59, 88, 148]⟩

/-- A 1024 by 1024 image: comfortably larger than the inset. -/
def bigLogo : PyImage := ⟨1024, 1024, fun _ _ => [59, 88, 148]⟩

/-! ## Claim theorems -/

/-- Claim C1, counterexample: on `"#3b5894"` the converter returns
`"220 43% 41%"`, not the claimed `"223 42% 40%"`. -/
theorem C1_counterexample :
    hex_to_hsl "#3b5894" = some "220 43% 41%" ∧
      hex_to_hsl "#3b5894" ≠ some "223 42% 40%" := by
  have h : hex_to_hsl "#3b5894" = some "220 43% 41%" := by
    rw [hex_to_hsl_of_parse _ 59 88 148 parse_3b5894, hslOfRGB_3b5894]
    decide
  exact ⟨h, by rw [h]; decide⟩

/-- Claim C1 (amended): `hex_to_hsl` applied to the string `"#3b5894"`
returns exactly the string `"220 43% 41%"`. -/
theorem C1_theorem : hex_to_hsl "#3b5894" = some "220 43% 41%" := by
  rw [hex_to_hsl_of_parse _ 59 88 148 parse_3b5894, hslOfRGB_3b5894]
  decide

/-- Claim C10: the converter of `hex_to_hsl.py` and the converter of
`update_color.py` agree on every input string (the two copies are
extensionally equal). -/
theorem C10_theorem : ∀ s : String, hex_to_hsl s = hex_to_hsl_hex s :=
  fun _ => rfl

/-- Claim C6: every gray input (equal parsed channels) yields hue 0 and
saturation 0, whatever the lightness; concretely `"#ffffff"` gives
`"0 0% 100%"` and `"#000000"` gives `"0 0% 0%"`. -/
theorem C6_theorem :
    (∀ (s : String) (R : ℤ), parseHexChannels s = some (R, R, R) →
      ∃ L : ℤ, hex_to_hsl s = some (formatHslT (0, 0, L))) ∧
      hex_to_hsl "#ffffff" = some "0 0% 100%" ∧
      hex_to_hsl "#000000" = some "0 0% 0%" := by
  refine ⟨?_, ?_, ?_⟩
  · intro s R h
    rw [hex_to_hsl_of_parse s R R R h, hslOfRGB_gray R]
    exact ⟨_, rfl⟩
  · have hp : parseHexChannels "#ffffff" = some (255, 255, 255) := by decide
    rw [hex_to_hsl_of_parse _ 255 255 255 hp, hslOfRGB_gray 255]
    have hl2 : lightQ (((255 : ℤ) : ℚ) / 255) (((255 : ℤ) : ℚ) / 255) (((255 : ℤ) : ℚ) / 255) = 1 := by
      unfold lightQ
      norm_num
    rw [hl2, show ((1 : ℚ) * 100) = ((100 : ℤ) : ℚ) by norm_num, pyRound_intCast]
    decide
  · have hp : parseHexChannels "#000000" = some (0, 0, 0) := by decide
    rw [hex_to_hsl_of_parse _ 0 0 0 hp, hslOfRGB_gray 0]
    have hl2 : lightQ (((0 : ℤ) : ℚ) / 255) (((0 : ℤ) : ℚ) / 255) (((0 : ℤ) : ℚ) / 255) = 0 := by
      unfold lightQ
      norm_num
    rw [hl2, show ((0 : ℚ) * 100) = ((0 : ℤ) : ℚ) by norm_num, pyRound_intCast]
    decide

/-- Claim C6, witness: the gray input `"#808080"` yields hue 0 and
saturation 0. -/
theorem C6_witness :
    ∃ L : ℤ, hex_to_hsl "#808080" = some (formatHslT (0, 0, L)) :=
  C6_theorem.1 "#808080" 128 (by decide)

/-- Claim C3, counterexample: the eight-hex-digit input `"#3b5894ff"` (six
digits plus alpha) does not raise a parse error, although its stripped form
has length 8, not 6: the converter uses the first six digits and succeeds. -/
theorem C3_counterexample :
    ("#3b5894ff".data.dropWhile (fun c => c = '#')).length = 8 ∧
      hex_to_hsl "#3b5894ff" = some "220 43% 41%" := by
  constructor
  · decide
  · have hp : parseHexChannels "#3b5894ff" = some (59, 88, 148) := by decide
    rw [hex_to_hsl_of_parse _ 59 88 148 hp, hslOfRGB_3b5894]
    decide

/-- Claim C3 (amended): for inputs made of hexadecimal digits only, the
converter raises a parse error exactly when the input has at most four
characters (each channel is a two-character slice at offsets 0, 2, 4, and
only an empty slice makes `int` fail); in particular inputs with six or
more digits, such as an eight-digit value with alpha, succeed. -/
theorem C3_theorem :
    ∀ s : String, (∀ c ∈ s.data, (hexDigit? c).isSome) →
      ((hex_to_hsl s).isSome ↔ 5 ≤ s.data.length) :=
  fun s hhd => hex_to_hsl_hexOnly_iff s hhd

/-- Claim C3, witness: the all-digit inputs `"3b5894ff"` (succeeds) and
`"3b58"` (fails) instantiate the length criterion. -/
theorem C3_witness :
    ((hex_to_hsl "3b5894ff").isSome ↔ 5 ≤ "3b5894ff".data.length) ∧
      ((hex_to_hsl "3b58").isSome ↔ 5 ≤ "3b58".data.length) :=
  ⟨ C3_theorem "3b5894ff" (by decide), C3_theorem "3b58" (by decide)⟩

/-- Claim C2, counterexample: on the valid six-digit input `"#ff0001"` the
rounded hue is exactly 360, which is not strictly below 360 (the claimed
interval is `[0, 360)`). -/
theorem C2_counterexample :
    (hslOfRGB 255 0 1).1 = 360 ∧
      hex_to_hsl "#ff0001" = some (formatHslT (hslOfRGB 255 0 1)) ∧
      ¬ (hslOfRGB 255 0 1).1 < 360 := by
  refine ⟨?_, hex_to_hsl_of_parse _ 255 0 1 parse_ff0001, ?_⟩
  · rw [hslOfRGB_ff0001]
  · rw [hslOfRGB_ff0001]
    decide

/-- Claim C2 (amended): for every input of exactly six hexadecimal digits,
optionally preceded by `#`, the converter returns `"H S% L%"` with integers
`H` in `[0, 360]` (the bound 360 is attained, e.g. on `"#ff0001"`), `S` in
`[0, 100]` and `L` in `[0, 100]`. -/
theorem C2_theorem (s : String) (h : ValidHex6 s) :
    ∃ t : ℤ × ℤ × ℤ, hex_to_hsl s = some (formatHslT t) ∧
      0 ≤ t.1 ∧ t.1 ≤ 360 ∧ 0 ≤ t.2.1 ∧ t.2.1 ≤ 100 ∧ 0 ≤ t.2.2 ∧ t.2.2 ≤ 100 := by
  obtain ⟨R, G, B, hp, hR0, hR1, hG0, hG1, hB0, hB1⟩ := parseHexChannels_of_valid s h
  obtain ⟨b1, b2, b3, b4, b5, b6⟩ := hslOfRGB_bounds R G B hR0 hR1 hG0 hG1 hB0 hB1
  exact ⟨hslOfRGB R G B, hex_to_hsl_of_parse s R G B hp, b1, b2, b3, b4, b5, b6⟩

/-- Claim C2, witness: the bounds instantiated on the concrete valid input
`"#3b5894"`. -/
theorem C2_witness :
    ∃ t : ℤ × ℤ × ℤ, hex_to_hsl "#3b5894" = some (formatHslT t) ∧
      0 ≤ t.1 ∧ t.1 ≤ 360 ∧ 0 ≤ t.2.1 ∧ t.2.1 ≤ 100 ∧ 0 ≤ t.2.2 ∧ t.2.2 ≤ 100 :=
  C2_theorem "#3b5894" ⟨['3', 'b', '5', '8', '9', '4'], Or.inr (by decide), rfl, by decide⟩

/-- Claim C9: on every six-hex-digit input the converter reaches no division
by zero: the divisions by `delta` are guarded by the `delta` nonzero branch,
and the saturation denominator `1 - |2 l - 1|` is nonzero whenever `delta`
is nonzero, so the fully division-checked core agrees with the actual
core. -/
theorem C9_theorem (s : String) (h : ValidHex6 s) :
    ∃ rgb : ℤ × ℤ × ℤ, parseHexChannels s = some rgb ∧
      hslOfRGBchecked rgb.1 rgb.2.1 rgb.2.2 = some (hslOfRGB rgb.1 rgb.2.1 rgb.2.2) := by
  obtain ⟨R, G, B, hp, hR0, hR1, hG0, hG1, hB0, hB1⟩ := parseHexChannels_of_valid s h
  exact ⟨(R, G, B), hp, hslOfRGBchecked_eq R G B hR0 hR1 hG0 hG1 hB0 hB1⟩

/-- Claim C9, witness: the checked evaluation on the concrete input
`"#ff0001"` (whose `delta` is nonzero and lightness is exactly one half). -/
theorem C9_witness :
    ∃ rgb : ℤ × ℤ × ℤ, parseHexChannels "#ff0001" = some rgb ∧
      hslOfRGBchecked rgb.1 rgb.2.1 rgb.2.2 = some (hslOfRGB rgb.1 rgb.2.1 rgb.2.2) :=
  C9_theorem "#ff0001" ⟨['f', 'f', '0', '0', '0', '1'], Or.inr (by decide), rfl, by decide⟩

/-- Claim C5, counterexample: on a 50 by 50 image the top-left sample reads
the fixed coordinate (100, 100) with no inset reduction, so the read fails
(`IndexError`), contradicting that the sample coordinates are always within
bounds. -/
theorem C5_counterexample : top_left smallLogo = none := by decide

/-- Claim C5 (amended): the top-left sample always reads the fixed
coordinate (100, 100); it is in bounds exactly when both dimensions exceed
100, and for a smaller image the read fails rather than using a smaller
inset. -/
theorem C5_theorem (img : PyImage) :
    (100 < img.width ∧ 100 < img.height → top_left img = some (img.pix 100 100)) ∧
      (img.width ≤ 100 ∨ img.height ≤ 100 → top_left img = none) := by
  constructor
  · rintro ⟨hw, hh⟩
    unfold top_left getpixel
    rw [if_pos ⟨by norm_num, by exact_mod_cast hw, by norm_num, by exact_mod_cast hh⟩]
    rfl
  · intro hsmall
    unfold top_left getpixel
    rw [if_neg]
    rintro ⟨_, hw, _, hh⟩
    rcases hsmall with hsmall | hsmall
    · have : (img.width : ℤ) ≤ 100 := by exact_mod_cast hsmall
      omega
    · have : (img.height : ℤ) ≤ 100 := by exact_mod_cast hsmall
      omega

/-- Claim C5, witness: the sample succeeds on the 1024-pixel image and fails
on the 50-pixel image. -/
theorem C5_witness :
    top_left bigLogo = some (bigLogo.pix 100 100) ∧ top_left smallLogo = none :=
  ⟨(C5_theorem bigLogo).1 ⟨by decide, by decide⟩,
    (C5_theorem smallLogo).2 (Or.inl (by decide))⟩

/-- Claim C7: on any decodable source image the generator produces exactly
the four PNG outputs `logo-32/64/128/256.png`, each with the declared
dimensions of its size-table entry, plus the `favicon-new.ico` bundle with
exactly the square frames 16, 32 and 64. -/
theorem C7_theorem (resampler : PyImage → ℕ × ℕ → ℕ → ℕ → List ℕ) (src : PyImage) :
    (generate_logo_outputs resampler src).map (fun p => (p.1, p.2.width, p.2.height)) =
        [("public/logo/logo-32.png", 32, 32), ("public/logo/logo-64.png", 64, 64),
          ("public/logo/logo-128.png", 128, 128), ("public/logo/logo-256.png", 256, 256)] ∧
      (generate_logo_outputs resampler src).length = 4 ∧
      favicon_new_ico = ("public/favicon-new.ico", [(16, 16), (32, 32), (64, 64)]) :=
  ⟨rfl, rfl, rfl⟩

/-- Claim C8: a sampled pixel of three or four channel values in `[0, 255]`
formats to `#rrggbb`: seven characters, a leading hash, the first three
channels as two lowercase hexadecimal digits each, the fourth (alpha)
channel dropped. -/
theorem C8_theorem (r g b a : ℕ) (hr : r ≤ 255) (hg : g ≤ 255) (hb : b ≤ 255) :
    ∃ str : String, rgb_to_hex [r, g, b, a] = some str ∧ rgb_to_hex [r, g, b] = some str ∧
      str.data = ['#', hexCharLower (r / 16), hexCharLower (r % 16), hexCharLower (g / 16),
        hexCharLower (g % 16), hexCharLower (b / 16), hexCharLower (b % 16)] ∧
      str.length = 7 ∧ ∀ c ∈ str.data.tail, isLowerHexChar c := by
  have hdata : ("#" ++ pyFormat02x r ++ pyFormat02x g ++ pyFormat02x b).data =
      ['#', hexCharLower (r / 16), hexCharLower (r % 16), hexCharLower (g / 16),
        hexCharLower (g % 16), hexCharLower (b / 16), hexCharLower (b % 16)] := by
    rw [show ("#" ++ pyFormat02x r ++ pyFormat02x g ++ pyFormat02x b).data =
        "#".data ++ (pyFormat02x r).data ++ (pyFormat02x g).data ++ (pyFormat02x b).data by
      simp [String.data_append]]
    rw [pyFormat02x_eval r hr, pyFormat02x_eval g hg, pyFormat02x_eval b hb]
    rfl
  refine ⟨"#" ++ pyFormat02x r ++ pyFormat02x g ++ pyFormat02x b, rfl, rfl, hdata, ?_, ?_⟩
  · rw [show ("#" ++ pyFormat02x r ++ pyFormat02x g ++ pyFormat02x b).length =
        ("#" ++ pyFormat02x r ++ pyFormat02x g ++ pyFormat02x b).data.length from rfl, hdata]
    rfl
  · rw [hdata]
    intro c hc
    simp only [List.tail_cons, List.mem_cons, List.not_mem_nil, or_false] at hc
    rcases hc with rfl | rfl | rfl | rfl | rfl | rfl <;> exact hexCharLower_mem _ (by omega)

/-- Claim C8, witness: the formatting instantiated on the sampled pixel
`(59, 88, 148, 255)`, the top-left logo sample with alpha. -/
theorem C8_witness :
    ∃ str : String, rgb_to_hex [59, 88, 148, 255] = some str ∧
      rgb_to_hex [59, 88, 148] = some str ∧
      str.data = ['#', hexCharLower (59 / 16), hexCharLower (59 % 16), hexCharLower (88 / 16),
        hexCharLower (88 % 16), hexCharLower (148 / 16), hexCharLower (148 % 16)] ∧
      str.length = 7 ∧ ∀ c ∈ str.data.tail, isLowerHexChar c :=
  C8_theorem 59 88 148 255 (by norm_num) (by norm_num) (by norm_num)

/-- Claim C4: when PIL is missing the favicon run degrades to SVG-only
output and succeeds; but when PIL is available the run does not complete:
after writing the SVG and the 64x64 PNG, evaluating `io.BytesIO` raises
`NameError` (the module never imports `io` at top level), the
`except ImportError` clause does not catch it, and the ICO is never
produced — so the claim that the generator never fails the whole run is
wrong on the raster-capable path. -/
theorem C4_theorem :
    favicon_main false = Except.ok ["public/favicon.svg"] ∧
      favicon_main true =
        Except.error (PyErr.nameError "io",
          ["public/favicon.svg", "public/favicon-64x64.png"]) := by
  constructor <;> rfl
